import Mathlib

/-!
Verification of the QR-Attendance-Checker views against their specification.

Python strings are modelled as Lean `String` (a wrapper around `List Char`);
Python `str.strip` is modelled with `List.dropWhile`/`List.rdropWhile` over the
ASCII whitespace characters that `str.strip` removes.  Side effects (database
calls, snackbars, navigation) are modelled as explicit output lists, and the
database itself is passed in as an oracle, mirroring the fact that the views
access it only through `is_user_checked_in` / `record_attendance` /
`get_event_by_id` / `get_attendance_by_event` / `create_event`.
-/

/-- The ASCII whitespace characters removed by Python `str.strip()`
(`' '`, `'\t'`, `'\n'`, `'\r'`, `'\x0b'`, `'\x0c'`).  The model is restricted
to ASCII whitespace; Python additionally strips Unicode space characters. -/
def isPySpace (c : Char) : Bool :=
  c = ' ' || c = '\t' || c = '\n' || c = '\r' || c = '\x0b' || c = '\x0c'

/-- Python `str.strip()` on the underlying character list: remove leading and
trailing whitespace. -/
def stripChars (l : List Char) : List Char :=
  (l.dropWhile isPySpace).rdropWhile isPySpace

/-- Python `str.strip()` lifted to `String`. -/
def pyStrip (s : String) : String :=
  ⟨stripChars s.data⟩

/-- Python `s.split("|", 1)` when `"|" in s`: split at the first `'|'`,
returning the part before it and the part after it; `none` when the string
contains no `'|'`. -/
def splitFirstPipe : List Char → Option (List Char × List Char)
  | [] => none
  | c :: cs =>
    if c = '|' then some ([], cs)
    else (splitFirstPipe cs).map (fun ab => (c :: ab.1, ab.2))

/-- The payload parsing step of `process_scan` (scan_view.py lines 127-134),
applied to the already-stripped payload `u`: if `u` contains a `'|'`, the part
before the first `'|'` (stripped) is the school id and the part after it
(stripped) is the user name; otherwise `u` itself is used for both. -/
def parsePayload (u : List Char) : String × String :=
  match splitFirstPipe u with
  | some ab => (⟨stripChars ab.1⟩, ⟨stripChars ab.2⟩)
  | none => (⟨u⟩, ⟨u⟩)

/-- Payload handling of `process_scan` from the raw input: Python first does
`user_id = user_id.strip()` and then parses. -/
def parseScan (s : String) : String × String :=
  parsePayload (stripChars s.data)

/-- Snackbar colours that `process_scan` uses. -/
inductive SnackColor where
  | green
  | orange
  | blue
  | red
deriving DecidableEq

/-- Observable effects of one `process_scan` call:
`lookups` records the arguments of `is_user_checked_in` calls, `records` the
arguments of `record_attendance` calls (event id, school id, user name,
timestamp), `snackbars` the shown snackbar messages, and `log` the resulting
scan-log entries (title, subtitle), newest first. -/
structure ScanEffects where
  lookups : List String
  records : List (String × String × String × String)
  snackbars : List (String × SnackColor)
  log : List (String × String)
deriving DecidableEq

/-- `process_scan` of scan_view.py (lines 120-160).  `db` is the
`is_user_checked_in(event_id, ·)` oracle of the data store, `log` the current
scan-log entries and `now` the formatted current time
(`datetime.now().strftime("%H:%M:%S")`).  Python's `if existing:` is truthy
exactly when the lookup returned a non-`None`, non-empty string, which the
`some ts` branch mirrors. -/
def process_scan (db : String → Option String) (event_id : String)
    (log : List (String × String)) (now : String) (input : String) : ScanEffects :=
  let u := stripChars input.data
  if u = [] then ⟨[], [], [], log⟩
  else
    let pr := parsePayload u
    match db pr.1 with
    | some ts =>
      if ts = "" then
        ⟨[pr.1], [(event_id, pr.1, pr.2, now)],
         [("✓ " ++ pr.2 ++ " checked in!", SnackColor.green)], (pr.2, now) :: log⟩
      else
        ⟨[pr.1], [],
         [("⚠️ " ++ pr.2 ++ " already checked in at " ++ ts, SnackColor.orange)], log⟩
    | none =>
      ⟨[pr.1], [(event_id, pr.1, pr.2, now)],
       [("✓ " ++ pr.2 ++ " checked in!", SnackColor.green)], (pr.2, now) :: log⟩

/-- The camera preview widgets mutated by `update_camera_frame`. -/
structure PreviewState where
  srcBase64 : String
  imageVisible : Bool
  placeholderVisible : Bool
deriving DecidableEq

/-- `update_camera_frame` of scan_view.py (lines 105-118): the `on_frame`
consumer.  It returns the preview unchanged when `camera_active` is false, and
otherwise shows the frame when it is a non-empty string
(`if frame_base64 and len(frame_base64) > 0`). -/
def update_camera_frame (camera_active : Bool) (pv : PreviewState)
    (frame_base64 : String) : PreviewState :=
  if !camera_active then pv
  else if frame_base64 ≠ "" ∧ 0 < frame_base64.length then
    ⟨frame_base64, true, false⟩
  else pv

/-- `on_qr_detected` of scan_view.py (lines 162-164): the `on_decoded`
consumer.  The source is `def on_qr_detected(qr_data): process_scan(qr_data)`;
it does not consult the `camera_active` flag (the flag is in scope in the
enclosing closure but unused here), so the flag is an explicit, unused
parameter of the model. -/
def on_qr_detected (_camera_active : Bool) (db : String → Option String)
    (event_id : String) (log : List (String × String)) (now : String)
    (qr_data : String) : ScanEffects :=
  process_scan db event_id log now qr_data

/-- Modelled from the spec: step 4 of the `QRCameraScanner` capture loop
(utils/qr_scanner.py is not among the analysed sources; spec §4.1).  Given the
`last_seen` map and the current time, a detected payload `p` fires `on_decoded`
(and updates `last_seen[p]` to `now`) exactly when `last_seen[p]` is absent or
`now - last_seen[p] >= cooldown_seconds`; otherwise it is suppressed.  Times
are modelled as integers. -/
def scanStep (cooldown : ℤ) (lastSeen : String → Option ℤ) (now : ℤ) (p : String) :
    (String → Option ℤ) × Bool :=
  match lastSeen p with
  | none => (fun q => if q = p then some now else lastSeen q, true)
  | some t0 =>
    if cooldown ≤ now - t0 then (fun q => if q = p then some now else lastSeen q, true)
    else (lastSeen, false)

/-- Modelled from the spec: the cooldown behaviour of the capture loop over a
trace of detections `(time, payload)`; returns the detections for which
`on_decoded` fired, in order. -/
def runScanner (cooldown : ℤ) (lastSeen : String → Option ℤ) :
    List (ℤ × String) → List (ℤ × String)
  | [] => []
  | e :: rest =>
    let st := scanStep cooldown lastSeen e.1 e.2
    if st.2 = true then e :: runScanner cooldown st.1 rest
    else runScanner cooldown st.1 rest

/-- The times at which `on_decoded` fired for payload `p`. -/
def firesFor (p : String) (fires : List (ℤ × String)) : List ℤ :=
  (fires.filter (fun e => decide (e.2 = p))).map Prod.fst

/-- Modelled from the spec: the error reported when the camera device cannot
be acquired (spec §4.1/§7). -/
inductive ScannerError where
  | deviceUnavailable
deriving DecidableEq

/-- Modelled from the spec: `QRCameraScanner.start()` — acquires the camera
device; if acquisition fails it reports `DeviceUnavailable` and does not start
the loop (spec §4.1). -/
def scannerStart (deviceAvailable : Bool) : Except ScannerError Unit :=
  if deviceAvailable then Except.ok () else Except.error ScannerError.deviceUnavailable

/-- One captured frame: its encoded preview representation together with the
decoded QR payload, if any. -/
structure CaptureFrame where
  encoded : String
  decoded : Option String
deriving DecidableEq

/-- Observable outcome of a scanner session: whether a worker was spawned, the
arguments of all `on_frame` and `on_decoded` callbacks, and the start error. -/
structure ScannerRunOutput where
  workerSpawned : Bool
  frameCallbacks : List String
  decodedCallbacks : List String
  startError : Option ScannerError
deriving DecidableEq

/-- Modelled from the spec: a whole scanner session over a timed list of
captured frames (spec §4.1).  On `DeviceUnavailable` no worker is spawned and
no callback is ever invoked; otherwise every frame produces an `on_frame`
callback and the decoded payloads go through the cooldown filter. -/
def scannerRun (deviceAvailable : Bool) (cooldown : ℤ)
    (frames : List (ℤ × CaptureFrame)) : ScannerRunOutput :=
  match scannerStart deviceAvailable with
  | Except.error e =>
    { workerSpawned := false, frameCallbacks := [], decodedCallbacks := [],
      startError := some e }
  | Except.ok _ =>
    { workerSpawned := true
      frameCallbacks := frames.map (fun f => f.2.encoded)
      decodedCallbacks :=
        (runScanner cooldown (fun _ => none)
          (frames.filterMap (fun f => f.2.decoded.map (fun p => (f.1, p))))).map Prod.snd
      startError := none }

/-- An event record as stored by the data store (`name`, `date` and the
optional `desc` key). -/
structure EventRec where
  name : String
  date : String
  descr : Option String
deriving DecidableEq

/-- One attendance record (`{'name': ..., 'time': ..., 'status': ...}`). -/
structure AttRecord where
  name : String
  time : String
  status : String
deriving DecidableEq

/-- The view value returned by `build`: either the placeholder
`ft.View("/", [ft.Container()])` produced for a missing event, or the normal
view for the route. -/
inductive BuiltView where
  | placeholder
  | scanView (route : String) (recent : List (String × String))
  | eventView (route : String) (rows : List (String × AttRecord))
deriving DecidableEq

/-- Observable outcome of a `build` call: `page.go` navigations,
`get_attendance_by_event` reads, and the returned view. -/
structure BuildResult where
  navigations : List String
  attendanceReads : List String
  view : BuiltView
deriving DecidableEq

/-- `ScanView.build` of scan_view.py (lines 16-36 and 306-318): when
`get_event_by_id` yields no event it navigates to `/home` and returns the
placeholder view; otherwise it reads the attendance and shows the first ten
records as the recent-activity log. -/
def ScanView_build (getEvent : String → Option EventRec)
    (getAttendance : String → List (String × AttRecord)) (event_id : String) :
    BuildResult :=
  match getEvent event_id with
  | none => { navigations := ["/home"], attendanceReads := [], view := BuiltView.placeholder }
  | some _ =>
    { navigations := []
      attendanceReads := [event_id]
      view := BuiltView.scanView ("/scan/" ++ event_id)
        (((getAttendance event_id).take 10).map (fun it => (it.2.name, it.2.time))) }

/-- `EventView.build` of event_view.py (lines 19-26 and 285-297): same
missing-event handling as `ScanView.build`; otherwise it reads the attendance
and builds the detail view with one table row per record. -/
def EventView_build (getEvent : String → Option EventRec)
    (getAttendance : String → List (String × AttRecord)) (event_id : String) :
    BuildResult :=
  match getEvent event_id with
  | none => { navigations := ["/home"], attendanceReads := [], view := BuiltView.placeholder }
  | some _ =>
    { navigations := []
      attendanceReads := [event_id]
      view := BuiltView.eventView ("/event/" ++ event_id) (getAttendance event_id) }

/-- Observable outcome of `save_event`: the arguments of `create_event` calls
(name, date, description), the error message put into `status_text` if any,
and the `page.go` navigations. -/
structure SaveResult where
  creates : List (String × String × String)
  errorMsg : Option String
  navigations : List String
deriving DecidableEq

/-- `save_event` of create_event_view.py (lines 110-145).  `name`, `date` and
`desc` are the current field values (Python `None` is modelled as `""`, which
is equally falsy).  `if not v or not v.strip()` rejects empty and
whitespace-only values; on success `create_event` receives the stripped name
and date, and the stripped description or `"No description"` when the
description field is falsy. -/
def save_event (name date desc : String) : SaveResult :=
  if name = "" ∨ pyStrip name = "" then
    ⟨[], some "Event name is required", []⟩
  else if date = "" ∨ pyStrip date = "" then
    ⟨[], some "Please select an event date", []⟩
  else
    ⟨[(pyStrip name, pyStrip date, if desc = "" then "No description" else pyStrip desc)],
     none, ["/home"]⟩

/-- Characters kept unchanged by the PDF filename sanitiser of
`generate_pdf_at_location` (event_view.py line 77): alphanumerics, space,
underscore and hyphen.  `Char.isAlphanum` is the ASCII reading of Python's
(Unicode-aware) `str.isalnum`. -/
def isSafeChar (c : Char) : Bool :=
  c.isAlphanum || c = ' ' || c = '_' || c = '-'

/-- `safe_event_name` of `generate_pdf_at_location` (event_view.py lines
77-78): every character of the event name that is not alphanumeric, space,
underscore or hyphen is replaced by an underscore. -/
def safe_event_name (s : String) : String :=
  ⟨s.data.map (fun c => if isSafeChar c then c else '_')⟩

/-- The exported PDF filename (event_view.py line 79):
`f"Attendance_{safe_event_name}_{timestamp}.pdf"`. -/
def pdf_filename (eventName timestamp : String) : String :=
  "Attendance_" ++ safe_event_name eventName ++ "_" ++ timestamp ++ ".pdf"

/-! ## Lemmas about `str.strip` and splitting at the first pipe -/

theorem isPySpace_pipe : isPySpace '|' = false := by decide

theorem dropWhile_append_pipe (a b : List Char) :
    (a ++ '|' :: b).dropWhile isPySpace = a.dropWhile isPySpace ++ '|' :: b := by
  rw [List.dropWhile_append]
  split
  · next h =>
    rw [List.isEmpty_iff] at h
    rw [h, List.nil_append, List.dropWhile_cons_of_neg (by simp [isPySpace_pipe])]
  · rfl

theorem rdropWhile_append_pipe (x b : List Char) :
    (x ++ '|' :: b).rdropWhile isPySpace = x ++ '|' :: b.rdropWhile isPySpace := by
  unfold List.rdropWhile
  have h1 : (x ++ '|' :: b).reverse = b.reverse ++ '|' :: x.reverse := by
    simp
  rw [h1, dropWhile_append_pipe]
  simp

theorem stripChars_append_pipe (a b : List Char) :
    stripChars (a ++ '|' :: b) =
      a.dropWhile isPySpace ++ '|' :: b.rdropWhile isPySpace := by
  unfold stripChars
  rw [dropWhile_append_pipe, rdropWhile_append_pipe]

theorem splitFirstPipe_append (u v : List Char) (h : '|' ∉ u) :
    splitFirstPipe (u ++ '|' :: v) = some (u, v) := by
  induction u with
  | nil => simp [splitFirstPipe]
  | cons c cs ih =>
    have hc : ¬c = '|' := fun hc => h (hc ▸ List.mem_cons_self c cs)
    rw [List.cons_append]
    rw [splitFirstPipe, if_neg hc, ih (fun hm => h (List.mem_cons_of_mem c hm))]
    rfl

theorem splitFirstPipe_eq_none (l : List Char) (h : '|' ∉ l) :
    splitFirstPipe l = none := by
  induction l with
  | nil => rfl
  | cons c cs ih =>
    have hc : ¬c = '|' := fun hc => h (hc ▸ List.mem_cons_self c cs)
    rw [splitFirstPipe, if_neg hc, ih (fun hm => h (List.mem_cons_of_mem c hm))]
    rfl

theorem stripChars_sublist (l : List Char) : List.Sublist (stripChars l) l :=
  ((List.rdropWhile_prefix isPySpace _).sublist).trans
    ((List.dropWhile_suffix isPySpace).sublist)

theorem dropWhile_rdropWhile_comm {α : Type*} (p : α → Bool) (l : List α) :
    (l.rdropWhile p).dropWhile p = (l.dropWhile p).rdropWhile p := by
  induction l using List.reverseRecOn with
  | nil => simp
  | append_singleton xs x ih =>
    by_cases hx : p x
    · rw [List.rdropWhile_concat_pos p xs x hx, ih, List.dropWhile_append]
      split
      · next h =>
        rw [List.isEmpty_iff] at h
        rw [h]
        simp [hx]
      · rw [List.rdropWhile_concat_pos p _ x hx]
    · rw [List.rdropWhile_concat_neg p xs x hx, List.dropWhile_append]
      split
      · next h =>
        rw [List.isEmpty_iff] at h
        simp [hx, List.rdropWhile_singleton]
      · rw [List.rdropWhile_concat_neg p _ x hx]

theorem stripChars_dropWhile (a : List Char) :
    stripChars (a.dropWhile isPySpace) = stripChars a := by
  unfold stripChars
  rw [List.dropWhile_idempotent]

theorem stripChars_rdropWhile (b : List Char) :
    stripChars (b.rdropWhile isPySpace) = stripChars b := by
  unfold stripChars
  rw [dropWhile_rdropWhile_comm, List.rdropWhile_idempotent]

theorem parsePayload_some (u a b : List Char) (h : splitFirstPipe u = some (a, b)) :
    parsePayload u = (⟨stripChars a⟩, ⟨stripChars b⟩) := by
  unfold parsePayload
  rw [h]

theorem parsePayload_none (u : List Char) (h : splitFirstPipe u = none) :
    parsePayload u = (⟨u⟩, ⟨u⟩) := by
  unfold parsePayload
  rw [h]

theorem parseScan_pipe (a b : List Char) (h : '|' ∉ a) :
    parseScan ⟨a ++ '|' :: b⟩ = (⟨stripChars a⟩, ⟨stripChars b⟩) := by
  have hna : '|' ∉ a.dropWhile isPySpace :=
    fun hm => h ((List.dropWhile_suffix isPySpace).sublist.subset hm)
  show parsePayload (stripChars (a ++ '|' :: b)) = _
  rw [parsePayload_some (stripChars (a ++ '|' :: b)) _ _
    (by rw [stripChars_append_pipe]; exact splitFirstPipe_append _ _ hna)]
  rw [stripChars_dropWhile, stripChars_rdropWhile]

theorem parseScan_no_pipe (s : String) (h : '|' ∉ s.data) :
    parseScan s = (pyStrip s, pyStrip s) := by
  have hns : '|' ∉ stripChars s.data :=
    fun hm => h ((stripChars_sublist s.data).subset hm)
  show parsePayload (stripChars s.data) = _
  rw [parsePayload_none _ (splitFirstPipe_eq_none _ hns)]
  rfl

/-! ## Claim C1 — payload parsing in `process_scan` -/

/-- C1 counterexample: the claim states that a payload with no `'|'` is used
*raw* as both person id and display name, but `process_scan` strips the whole
payload first: `" E101"` yields id `"E101"`, not the raw `" E101"`. -/
theorem parseScan_raw_cex :
    '|' ∉ (" E101" : String).data ∧
    parseScan " E101" = ("E101", "E101") ∧
    parseScan " E101" ≠ (" E101", " E101") := by
  refine ⟨by decide, by decide, by decide⟩

/-- C1 (amended): a payload containing `'|'` is split at the first `'|'` and
both parts are stripped of surrounding whitespace; a payload with no `'|'`
yields its *stripped* form as both person id and display name.  In particular
`"E101|Jane Doe"` gives id `"E101"` and name `"Jane Doe"`, and `"E101"` alone
gives id `"E101"` and name `"E101"`. -/
theorem parseScan_spec :
    (∀ (a b : List Char), '|' ∉ a →
        parseScan ⟨a ++ '|' :: b⟩ = (⟨stripChars a⟩, ⟨stripChars b⟩)) ∧
    (∀ s : String, '|' ∉ s.data → parseScan s = (pyStrip s, pyStrip s)) ∧
    parseScan "E101|Jane Doe" = ("E101", "Jane Doe") ∧
    parseScan "E101" = ("E101", "E101") :=
  ⟨parseScan_pipe, parseScan_no_pipe, by decide, by decide⟩

/-- Witness for `parseScan_spec` at concrete inputs. -/
theorem parseScan_spec_witness :
    parseScan ⟨"E101".data ++ '|' :: " Jane Doe ".data⟩ =
      (⟨stripChars "E101".data⟩, ⟨stripChars " Jane Doe ".data⟩) ∧
    parseScan " E101 " = (pyStrip " E101 ", pyStrip " E101 ") :=
  ⟨parseScan_spec.1 "E101".data " Jane Doe ".data (by decide),
   parseScan_spec.2.1 " E101 " (by decide)⟩

/-! ## Claim C5 — empty payload after strip is a no-op -/

/-- C5: an input that is empty after stripping surrounding whitespace causes
no data-store lookup, no `record_attendance` call, no snackbar and no
scan-log change. -/
theorem process_scan_empty_noop (db : String → Option String) (event_id : String)
    (log : List (String × String)) (now input : String)
    (h : pyStrip input = "") :
    process_scan db event_id log now input = ⟨[], [], [], log⟩ := by
  have h' : stripChars input.data = [] := congrArg String.data h
  simp [process_scan, h']

/-- Witness for `process_scan_empty_noop` at a whitespace-only input. -/
theorem process_scan_empty_noop_witness :
    process_scan (fun _ => none) "E1" [("Old", "08:00:00")] "10:00:00" "  \t " =
      ⟨[], [], [], [("Old", "08:00:00")]⟩ :=
  process_scan_empty_noop (fun _ => none) "E1" [("Old", "08:00:00")] "10:00:00" "  \t "
    (by decide)

/-! ## Claim C4 — already-checked-in payloads do not re-record -/

/-- C4: when `is_user_checked_in` returns an existing (non-empty) timestamp
for the parsed person id, `process_scan` calls `record_attendance` zero times,
leaves the scan log unchanged, and shows only the "already checked in"
warning.  (`ts ≠ ""` reflects Python's `if existing:` truthiness test; the
timestamps the code stores come from `strftime("%H:%M:%S")` and are never
empty.) -/
theorem process_scan_already_checked_in (db : String → Option String)
    (event_id : String) (log : List (String × String)) (now input ts : String)
    (hne : pyStrip input ≠ "")
    (hdb : db (parseScan input).1 = some ts) (hts : ts ≠ "") :
    process_scan db event_id log now input =
      ⟨[(parseScan input).1], [],
       [("⚠️ " ++ (parseScan input).2 ++ " already checked in at " ++ ts,
         SnackColor.orange)], log⟩ := by
  have h' : stripChars input.data ≠ [] := by
    intro hc
    exact hne (congrArg String.mk hc)
  simp only [parseScan] at hdb
  simp [process_scan, h', hdb, hts, parseScan]

/-- Witness for `process_scan_already_checked_in` at a concrete database
state where `E101` is already checked in at `09:15:00`. -/
theorem process_scan_already_checked_in_witness :
    process_scan (fun i => if i = "E101" then some "09:15:00" else none) "E1"
        [("Jane Doe", "09:15:00")] "10:00:00" "E101|Jane Doe" =
      ⟨["E101"], [],
       [("⚠️ Jane Doe already checked in at 09:15:00", SnackColor.orange)],
       [("Jane Doe", "09:15:00")]⟩ :=
  process_scan_already_checked_in
    (fun i => if i = "E101" then some "09:15:00" else none) "E1"
    [("Jane Doe", "09:15:00")] "10:00:00" "E101|Jane Doe" "09:15:00"
    (by decide) (by decide) (by decide)

/-! ## Claim C7 — fresh payloads record exactly once -/

/-- C7: when `is_user_checked_in` returns `None` for the parsed person id,
`process_scan` calls `record_attendance(event_id, person_id, display_name,
timestamp)` exactly once, prepends the `(display_name, timestamp)` entry at
the front of the scan log, and shows the "checked in" confirmation. -/
theorem process_scan_records_once (db : String → Option String)
    (event_id : String) (log : List (String × String)) (now input : String)
    (hne : pyStrip input ≠ "")
    (hdb : db (parseScan input).1 = none) :
    process_scan db event_id log now input =
      ⟨[(parseScan input).1],
       [(event_id, (parseScan input).1, (parseScan input).2, now)],
       [("✓ " ++ (parseScan input).2 ++ " checked in!", SnackColor.green)],
       ((parseScan input).2, now) :: log⟩ := by
  have h' : stripChars input.data ≠ [] := by
    intro hc
    exact hne (congrArg String.mk hc)
  simp only [parseScan] at hdb
  simp [process_scan, h', hdb, parseScan]

/-- Witness for `process_scan_records_once`. -/
theorem process_scan_records_once_witness :
    process_scan (fun _ => none) "E1" [("Old", "08:00:00")] "10:00:00"
        "E101|Jane Doe" =
      ⟨["E101"], [("E1", "E101", "Jane Doe", "10:00:00")],
       [("✓ Jane Doe checked in!", SnackColor.green)],
       [("Jane Doe", "10:00:00"), ("Old", "08:00:00")]⟩ :=
  process_scan_records_once (fun _ => none) "E1" [("Old", "08:00:00")]
    "10:00:00" "E101|Jane Doe" (by decide) (by decide)

/-! ## Claim C3 — behaviour after the camera is toggled off -/

/-- C3 counterexample: a payload delivered after the camera is toggled off
(`camera_active = False`) still undergoes full check-in processing —
`on_qr_detected` does not consult the flag, so `record_attendance` is called
for a fresh id, refuting the claim that no check-in processing occurs. -/
theorem on_qr_detected_after_stop_cex :
    (on_qr_detected false (fun _ => none) "E1" [] "10:00:00" "E101|Jane Doe").records
      = [("E1", "E101", "Jane Doe", "10:00:00")] ∧
    (on_qr_detected false (fun _ => none) "E1" [] "10:00:00" "E101|Jane Doe").records
      ≠ [] := by
  refine ⟨by decide, by decide⟩

/-- C3 (amended): after the camera is toggled off, frames delivered to
`update_camera_frame` leave the preview unchanged; payloads delivered to
`on_qr_detected`, however, are still processed exactly as when the camera is
active — the view relies on the scanner's `stop()` guarantee to prevent such
deliveries rather than guarding the check-in path itself. -/
theorem after_toggle_off_behavior :
    (∀ (pv : PreviewState) (frame : String),
        update_camera_frame false pv frame = pv) ∧
    (∀ (cam : Bool) (db : String → Option String) (event_id : String)
        (log : List (String × String)) (now qr_data : String),
        on_qr_detected cam db event_id log now qr_data =
          process_scan db event_id log now qr_data) := by
  constructor
  · intro pv frame
    simp [update_camera_frame]
  · intro cam db event_id log now qr_data
    rfl

/-! ## Claim C8 — building views for a nonexistent event -/

/-- C8: when `get_event_by_id` yields no event, both `ScanView.build` and
`EventView.build` navigate to `/home` and return the placeholder view without
reading the attendance store. -/
theorem build_missing_event (getEvent : String → Option EventRec)
    (getAttendance : String → List (String × AttRecord)) (event_id : String)
    (h : getEvent event_id = none) :
    ScanView_build getEvent getAttendance event_id =
      ⟨["/home"], [], BuiltView.placeholder⟩ ∧
    EventView_build getEvent getAttendance event_id =
      ⟨["/home"], [], BuiltView.placeholder⟩ := by
  constructor
  · simp [ScanView_build, h]
  · simp [EventView_build, h]

/-- Witness for `build_missing_event` with an empty event store. -/
theorem build_missing_event_witness :
    ScanView_build (fun _ => none) (fun _ => []) "ghost" =
      ⟨["/home"], [], BuiltView.placeholder⟩ ∧
    EventView_build (fun _ => none) (fun _ => []) "ghost" =
      ⟨["/home"], [], BuiltView.placeholder⟩ :=
  build_missing_event (fun _ => none) (fun _ => []) "ghost" rfl

/-! ## Claim C9 — `save_event` validation -/

/-- C9: `save_event` calls `create_event` only when both the event name and
the selected date are non-empty after stripping; otherwise it makes no
database call and only sets an error message.  When it does create, it passes
the stripped name, the stripped date, and the stripped description — or
`"No description"` when the description field is empty. -/
theorem save_event_validation :
    (∀ name date desc : String, pyStrip name = "" →
        save_event name date desc = ⟨[], some "Event name is required", []⟩) ∧
    (∀ name date desc : String, pyStrip name ≠ "" → pyStrip date = "" →
        save_event name date desc =
          ⟨[], some "Please select an event date", []⟩) ∧
    (∀ name date desc : String, pyStrip name ≠ "" → pyStrip date ≠ "" →
        save_event name date desc =
          ⟨[(pyStrip name, pyStrip date,
             if desc = "" then "No description" else pyStrip desc)],
           none, ["/home"]⟩) := by
  refine ⟨?_, ?_, ?_⟩
  · intro name date desc h
    simp [save_event, h]
  · intro name date desc hn hd
    have hn' : ¬name = "" := fun hc => hn (by rw [hc]; rfl)
    rw [save_event, if_neg (by exact fun hor => hor.elim hn' hn), if_pos (Or.inr hd)]
  · intro name date desc hn hd
    have hn' : ¬name = "" := fun hc => hn (by rw [hc]; rfl)
    have hd' : ¬date = "" := fun hc => hd (by rw [hc]; rfl)
    rw [save_event, if_neg (by exact fun hor => hor.elim hn' hn),
      if_neg (by exact fun hor => hor.elim hd' hd)]

/-- Witness for `save_event_validation`: missing date blocks creation; a
complete form creates one event with stripped fields and the default
description. -/
theorem save_event_validation_witness :
    save_event " Annual Meeting " "   " "notes" =
      ⟨[], some "Please select an event date", []⟩ ∧
    save_event " Annual Meeting " " May 5, 2025 " "" =
      ⟨[("Annual Meeting", "May 5, 2025", "No description")], none, ["/home"]⟩ := by
  constructor
  · exact save_event_validation.2.1 " Annual Meeting " "   " "notes"
      (by decide) (by decide)
  · exact save_event_validation.2.2 " Annual Meeting " " May 5, 2025 " ""
      (by decide) (by decide)

/-! ## Claim C10 — PDF filename sanitisation -/

/-- C10: the exported PDF filename is
`"Attendance_" ++ sanitised name ++ "_" ++ timestamp ++ ".pdf"`, the sanitised
name replaces every character that is not alphanumeric, space, underscore or
hyphen by an underscore, and consequently every character of the filename is
such a safe character, a `'.'`, or a character of the timestamp — no event
name can inject a path separator. -/
theorem pdf_filename_sanitized :
    (∀ name ts : String, pdf_filename name ts =
        "Attendance_" ++ safe_event_name name ++ "_" ++ ts ++ ".pdf") ∧
    (∀ name : String, (safe_event_name name).data =
        name.data.map (fun c => if isSafeChar c then c else '_')) ∧
    (∀ name : String, ∀ c ∈ (safe_event_name name).data, isSafeChar c = true) ∧
    (∀ name ts : String, ∀ c ∈ (pdf_filename name ts).data,
        isSafeChar c = true ∨ c = '.' ∨ c ∈ ts.data) ∧
    safe_event_name "../etc|x" = "___etc_x" := by
  have hsafe : ∀ name : String, ∀ c ∈ (safe_event_name name).data,
      isSafeChar c = true := by
    intro name c hc
    rcases List.mem_map.mp hc with ⟨c0, _, hc0⟩
    by_cases h0 : isSafeChar c0
    · rw [if_pos h0] at hc0
      rw [← hc0]
      exact h0
    · rw [if_neg h0] at hc0
      rw [← hc0]
      decide
  have hAtt : ∀ x ∈ ("Attendance_" : String).data, isSafeChar x = true := by decide
  have hBar : ∀ x ∈ ("_" : String).data, isSafeChar x = true := by decide
  have hPdf : ∀ x ∈ (".pdf" : String).data, isSafeChar x = true ∨ x = '.' := by decide
  refine ⟨fun name ts => rfl, fun name => rfl, hsafe, ?_, by decide⟩
  intro name ts c hc
  simp only [pdf_filename, String.data_append] at hc
  rcases List.mem_append.mp hc with hc1 | hc2
  · rcases List.mem_append.mp hc1 with hc3 | hc4
    · rcases List.mem_append.mp hc3 with hc5 | hc6
      · rcases List.mem_append.mp hc5 with hc7 | hc8
        · exact Or.inl (hAtt c hc7)
        · exact Or.inl (hsafe name c hc8)
      · exact Or.inl (hBar c hc6)
    · exact Or.inr (Or.inr hc4)
  · rcases hPdf c hc2 with h | h
    · exact Or.inl h
    · exact Or.inr (Or.inl h)

/-- Witness for `pdf_filename_sanitized` at a concrete hostile event name. -/
theorem pdf_filename_sanitized_witness :
    pdf_filename "../etc|x" "20250101_120000" =
      "Attendance_" ++ safe_event_name "../etc|x" ++ "_" ++ "20250101_120000" ++ ".pdf" ∧
    (isSafeChar 'A' = true ∨ 'A' = '.' ∨ 'A' ∈ ("20250101_120000" : String).data) :=
  ⟨pdf_filename_sanitized.1 "../etc|x" "20250101_120000",
   pdf_filename_sanitized.2.2.2.1 "../etc|x" "20250101_120000" 'A' (by decide)⟩

/-! ## Claim C6 — device acquisition failure -/

/-- C6: if camera acquisition fails, `start()` reports `DeviceUnavailable`,
no worker is spawned and `on_frame`/`on_decoded` are never called; the caller
can detect the failure because it is exactly the sessions started with an
unavailable device that carry the `DeviceUnavailable` error. -/
theorem scanner_device_unavailable :
    (∀ (cooldown : ℤ) (frames : List (ℤ × CaptureFrame)),
        scannerRun false cooldown frames =
          ⟨false, [], [], some ScannerError.deviceUnavailable⟩) ∧
    (∀ (d : Bool) (cooldown : ℤ) (frames : List (ℤ × CaptureFrame)),
        (scannerRun d cooldown frames).startError =
          some ScannerError.deviceUnavailable ↔ d = false) ∧
    scannerStart false = Except.error ScannerError.deviceUnavailable := by
  refine ⟨fun cooldown frames => ?_, fun d cooldown frames => ?_, rfl⟩
  · simp [scannerRun, scannerStart]
  · cases d
    · simp [scannerRun, scannerStart]
    · simp [scannerRun, scannerStart]

/-! ## Claim C2 — cooldown suppression of duplicate detections -/

theorem scanStep_fst_apply_ne (c : ℤ) (ls : String → Option ℤ) (t : ℤ)
    (q r : String) (h : r ≠ q) : (scanStep c ls t q).1 r = ls r := by
  unfold scanStep
  cases hq : ls q with
  | none => simp [h]
  | some t0 =>
    by_cases hc : c ≤ t - t0
    · simp [hc, h]
    · simp [hc]

theorem scanStep_fst_self (c : ℤ) (ls : String → Option ℤ) (t : ℤ) (q : String)
    (h : (scanStep c ls t q).2 = true) : (scanStep c ls t q).1 q = some t := by
  rcases hq : ls q with _ | t0
  · simp [scanStep, hq]
  · by_cases hc : c ≤ t - t0
    · simp [scanStep, hq, hc]
    · simp [scanStep, hq, hc] at h

theorem scanStep_not_fired (c : ℤ) (ls : String → Option ℤ) (t : ℤ) (q : String)
    (h : (scanStep c ls t q).2 = false) : (scanStep c ls t q).1 = ls := by
  rcases hq : ls q with _ | t0
  · simp [scanStep, hq] at h
  · by_cases hc : c ≤ t - t0
    · simp [scanStep, hq, hc] at h
    · simp [scanStep, hq, hc]

theorem scanStep_fired_cooldown (c : ℤ) (ls : String → Option ℤ) (t : ℤ)
    (q : String) (t0 : ℤ) (hq : ls q = some t0)
    (h : (scanStep c ls t q).2 = true) : c ≤ t - t0 := by
  by_cases hc : c ≤ t - t0
  · exact hc
  · simp [scanStep, hq, hc] at h

theorem runScanner_pairwise_aux (c : ℤ) (hc : 0 ≤ c) (p : String) :
    ∀ (trace : List (ℤ × String)) (ls : String → Option ℤ),
      List.Pairwise (· ≤ ·) (trace.map Prod.fst) →
      (∀ t0, ls p = some t0 → ∀ e ∈ trace, t0 ≤ e.1) →
      List.Pairwise (fun a b => a + c ≤ b) (firesFor p (runScanner c ls trace)) ∧
      (∀ t0, ls p = some t0 →
        ∀ tf ∈ firesFor p (runScanner c ls trace), t0 + c ≤ tf) := by
  intro trace
  induction trace with
  | nil =>
    intro ls _ _
    constructor
    · simp [runScanner, firesFor]
    · intro t0 _ tf htf
      simp [runScanner, firesFor] at htf
  | cons e rest ih =>
    intro ls hsort hinv
    obtain ⟨t, q⟩ := e
    rw [List.map_cons, List.pairwise_cons] at hsort
    obtain ⟨hle, hsort'⟩ := hsort
    by_cases hf : (scanStep c ls t q).2 = true
    · have hrun : runScanner c ls ((t, q) :: rest) =
          (t, q) :: runScanner c (scanStep c ls t q).1 rest := by
        simp [runScanner, hf]
      by_cases hqp : q = p
      · subst hqp
        have hself : (scanStep c ls t q).1 q = some t :=
          scanStep_fst_self c ls t q hf
        have hinv' : ∀ t0, (scanStep c ls t q).1 q = some t0 →
            ∀ e ∈ rest, t0 ≤ e.1 := by
          intro t0 h0 e he
          rw [hself] at h0
          injection h0 with h0
          rw [← h0]
          exact hle e.1 (List.mem_map_of_mem Prod.fst he)
        obtain ⟨ihp, ihb⟩ := ih (scanStep c ls t q).1 hsort' hinv'
        have hfilter : firesFor q (runScanner c ls ((t, q) :: rest)) =
            t :: firesFor q (runScanner c (scanStep c ls t q).1 rest) := by
          rw [hrun]
          simp [firesFor]
        constructor
        · rw [hfilter, List.pairwise_cons]
          exact ⟨ihb t hself, ihp⟩
        · intro t0 h0 tf htf
          rw [hfilter] at htf
          have hcool : c ≤ t - t0 := scanStep_fired_cooldown c ls t q t0 h0 hf
          rcases List.mem_cons.mp htf with h1 | h1
          · omega
          · have h2 := ihb t hself tf h1
            omega
      · have hne : (scanStep c ls t q).1 p = ls p :=
          scanStep_fst_apply_ne c ls t q p (Ne.symm hqp)
        have hinv' : ∀ t0, (scanStep c ls t q).1 p = some t0 →
            ∀ e ∈ rest, t0 ≤ e.1 := by
          intro t0 h0 e he
          rw [hne] at h0
          exact hinv t0 h0 e (List.mem_cons_of_mem _ he)
        obtain ⟨ihp, ihb⟩ := ih (scanStep c ls t q).1 hsort' hinv'
        have hfilter : firesFor p (runScanner c ls ((t, q) :: rest)) =
            firesFor p (runScanner c (scanStep c ls t q).1 rest) := by
          rw [hrun]
          simp [firesFor, hqp]
        constructor
        · rw [hfilter]
          exact ihp
        · intro t0 h0 tf htf
          rw [hfilter] at htf
          exact ihb t0 (by rw [hne]; exact h0) tf htf
    · have hf' : (scanStep c ls t q).2 = false := by
        revert hf
        cases (scanStep c ls t q).2 <;> simp
      have hls : (scanStep c ls t q).1 = ls := scanStep_not_fired c ls t q hf'
      have hrun : runScanner c ls ((t, q) :: rest) =
          runScanner c ls rest := by
        simp [runScanner, hf, hls]
      have hinv' : ∀ t0, ls p = some t0 → ∀ e ∈ rest, t0 ≤ e.1 :=
        fun t0 h0 e he => hinv t0 h0 e (List.mem_cons_of_mem _ he)
      obtain ⟨ihp, ihb⟩ := ih ls hsort' hinv'
      constructor
      · rw [hrun]
        exact ihp
      · intro t0 h0 tf htf
        rw [hrun] at htf
        exact ihb t0 h0 tf htf

/-- C2: with cooldown `c > 0` and detections arriving in time order, the times
at which `on_decoded` fires for any payload `p` are pairwise at least `c`
apart — once `p` fires at time `t`, no second fire for `p` occurs before
`t + c`.  A detection fires exactly when `last_seen[p]` is absent or
`now - last_seen[p] ≥ c` (and then `last_seen[p]` is set to `now`).  Three
detections of `"A1"` at t = 0, 1, 6 with cooldown 5 fire at t = 0 and t = 6
only. -/
theorem scanner_cooldown :
    (∀ (c : ℤ) (trace : List (ℤ × String)) (p : String),
        0 < c →
        List.Pairwise (· ≤ ·) (trace.map Prod.fst) →
        List.Pairwise (fun a b => a + c ≤ b)
          (firesFor p (runScanner c (fun _ => none) trace))) ∧
    (∀ (c : ℤ) (ls : String → Option ℤ) (now : ℤ) (p : String),
        ((scanStep c ls now p).2 = true ↔
          ls p = none ∨ ∃ t0, ls p = some t0 ∧ c ≤ now - t0)) ∧
    (∀ (c : ℤ) (ls : String → Option ℤ) (now : ℤ) (p : String),
        (scanStep c ls now p).2 = true → (scanStep c ls now p).1 p = some now) ∧
    runScanner 5 (fun _ => none) [(0, "A1"), (1, "A1"), (6, "A1")] =
      [(0, "A1"), (6, "A1")] := by
  refine ⟨?_, ?_, scanStep_fst_self, by decide⟩
  · intro c trace p hc hsort
    refine (runScanner_pairwise_aux c (le_of_lt hc) p trace (fun _ => none)
      hsort ?_).1
    intro t0 h0
    cases h0
  · intro c ls now p
    unfold scanStep
    cases hq : ls p with
    | none => simp
    | some t0 =>
      by_cases hcd : c ≤ now - t0
      · simp [hcd]
      · simp [hcd]

/-- Witness for `scanner_cooldown` at the concrete t = 0, 1, 6 scenario with
cooldown 5. -/
theorem scanner_cooldown_witness :
    List.Pairwise (fun a b => a + 5 ≤ b)
      (firesFor "A1" (runScanner 5 (fun _ => none)
        [(0, "A1"), (1, "A1"), (6, "A1")])) :=
  scanner_cooldown.1 5 [(0, "A1"), (1, "A1"), (6, "A1")] "A1"
    (by decide) (by decide)
